import Mathlib

/-!
Shallow embedding of osquery's Linux PCI devices table
(osquery/tables/system/linux/pci_devices.cpp): the pci.ids database
parser (the PciDB constructor), the three lookups (getVendorName,
getModel, getSubsystemInfo) and the row-generation pipeline
(genPCIDevices).

Strings are lists of characters; std::map is an association list whose
lookup/assignment semantics mirror find and operator[]; a
std::string::substr call that can throw std::out_of_range is modelled
by an explicit bounds check, and the PciDB constructor consequently
returns an Except value whose error case models the uncaught
exception.
-/

namespace Pci

abbrev Str := List Char

/-- The character set scanned by line.find_first_of("0123456789abcdef"). -/
def isPciHex (c : Char) : Bool :=
  (decide ('0' ≤ c) && decide (c ≤ '9')) || (decide ('a' ≤ c) && decide (c ≤ 'f'))

/-- Zero-based offset of the first hex digit in a line, as computed by
line.find_first_of("0123456789abcdef"); none models std::string::npos. -/
def findFirstHex : Str → Option Nat
  | [] => none
  | c :: t => if isPciHex c then some 0 else (findFirstHex t).map (fun n => n + 1)

/-- std::tolower applied to an unsigned char in the C locale (ASCII). -/
def toLowerChar (c : Char) : Char :=
  if 'A' ≤ c ∧ c ≤ 'Z' then Char.ofNat (c.toNat + 32) else c

def toLowerStr (s : Str) : Str := s.map toLowerChar

/-- boost::split with boost::is_any_of(":"): every separator produces a
token boundary, empty tokens are kept, and the empty input yields one
empty token. -/
def splitOnColon : Str → List Str
  | [] => [[]]
  | c :: t =>
    if c = ':' then [] :: splitOnColon t
    else
      match splitOnColon t with
      | [] => [[c]]
      | h :: r => (c :: h) :: r

/-- std::map::find, on an association list. -/
def alookup {α : Type} (k : Str) : List (Str × α) → Option α
  | [] => none
  | (k2, v) :: t => if k2 = k then some v else alookup k t

/-- std::map operator[] assignment m[k] = v: replaces the binding when
the key is present, otherwise inserts a new one. -/
def aset {α : Type} (k : Str) (v : α) : List (Str × α) → List (Str × α)
  | [] => [(k, v)]
  | (k2, v2) :: t => if k2 = k then (k, v) :: t else (k2, v2) :: aset k v t

/-- std::map operator[] read access m[k]: returns the mapped value,
value-initializing and inserting it first when the key is absent. -/
def mapIndexOp {α : Type} (k : Str) (d : α) (m : List (Str × α)) : α × List (Str × α) :=
  match alookup k m with
  | some v => (v, m)
  | none => (d, m ++ [(k, d)])

structure PciModel where
  id : Str := []
  desc : Str := []
  subsystemInfo : List (Str × Str) := []
deriving DecidableEq, Repr

structure PciVendor where
  id : Str := []
  name : Str := []
  models : List (Str × PciModel) := []
deriving DecidableEq, Repr

abbrev DB := List (Str × PciVendor)

/-- The sequential parse cursors of the PciDB constructor together with
the database built so far. -/
structure ParseState where
  db : DB := []
  curVendor : Str := []
  curModel : Str := []
deriving DecidableEq, Repr

/-- Outcome of one loop iteration of the PciDB constructor: continue
with a new state, return early (the ffff vendor), or propagate an
uncaught std::out_of_range from substr. -/
inductive StepOut where
  | next (st : ParseState)
  | stop (db : DB)
  | thrown
deriving DecidableEq, Repr

/-- The continue-guard of the loop: lines shorter than 7 characters,
lines whose first character is a newline, and comment lines. -/
def lineSkipped (l : Str) : Bool :=
  decide (l.length < 7) || decide (l.head? = some '\n') || decide (l.head? = some '#')

/-- One getline iteration of the PciDB constructor.  The switch on
line.find_first_of classifies the line; line.substr(13) in the
subsystem case throws std::out_of_range when the line is shorter than
13 characters, which the constructor does not catch (StepOut.thrown).
All other substr calls are within bounds under the guards. -/
def stepLine (st : ParseState) (l : Str) : StepOut :=
  if lineSkipped l then .next st
  else
    match findFirstHex l with
    | some 0 =>
      let curV := l.take 4
      if curV = "ffff".toList then .stop st.db
      else
        let vendor : PciVendor := { id := curV, name := l.drop 6, models := [] }
        .next { db := aset curV vendor st.db, curVendor := curV, curModel := st.curModel }
    | some 1 =>
      match alookup st.curVendor st.db with
      | some ve =>
        if 7 < l.length then
          let curM := (l.drop 1).take 4
          let model : PciModel := { id := curM, desc := l.drop 7, subsystemInfo := [] }
          let ve2 : PciVendor := { ve with models := aset curM model ve.models }
          .next { db := aset st.curVendor ve2 st.db,
                  curVendor := st.curVendor, curModel := curM }
        else .next st
      | none => .next st
    | some 2 =>
      match alookup st.curVendor st.db with
      | some ve =>
        match alookup st.curModel ve.models with
        | some me =>
          if 11 < l.length then
            if 13 ≤ l.length then
              let me2 : PciModel :=
                { me with subsystemInfo := aset ((l.drop 2).take 9) (l.drop 13) me.subsystemInfo }
              let ve2 : PciVendor := { ve with models := aset st.curModel me2 ve.models }
              .next { st with db := aset st.curVendor ve2 st.db }
            else .thrown
          else .next st
        | none => .next st
      | none => .next st
    | _ => .next st

/-- The constructor loop over a list of lines; Except.error models the
uncaught std::out_of_range escaping the constructor. -/
def parseLines : ParseState → List Str → Except Unit DB
  | st, [] => .ok st.db
  | st, l :: rest =>
    match stepLine st l with
    | .next st2 => parseLines st2 rest
    | .stop db => .ok db
    | .thrown => .error ()

/-- PciDB::PciDB over a whole line stream, from the initial state. -/
def pciDBparse (lines : List Str) : Except Unit DB := parseLines {} lines

/-- Runs the constructor loop while it neither stops nor throws,
exposing the intermediate parse state. -/
def runLines : ParseState → List Str → Option ParseState
  | st, [] => some st
  | st, l :: rest =>
    match stepLine st l with
    | .next st2 => runLines st2 rest
    | _ => none

/-- PciDB::getVendorName; none models Status(1, "Vendor ID does not
exist").  The body guards with find before operator[], so it never
inserts. -/
def getVendorName (db : DB) (vendor_id : Str) : Option Str :=
  match alookup vendor_id db with
  | none => none
  | some ve => some ve.name

/-- PciDB::getModel; none models the failure Status.  Both map
accesses are guarded with find, so it never inserts. -/
def getModel (db : DB) (vendor_id model_id : Str) : Option Str :=
  match alookup vendor_id db with
  | none => none
  | some ve =>
    match alookup model_id ve.models with
    | none => none
    | some me => some me.desc

/-- PciDB::getSubsystemInfo.  The C++ body reads
db_[vendor_id].models[model_id].subsystemInfo with unguarded
operator[] calls, each of which inserts a value-initialized entry when
its key is absent, so the method returns the possibly mutated map
alongside the lookup result. -/
def getSubsystemInfo (db : DB)
    (vendor_id model_id subsystem_vendor_id subsystem_device_id : Str) :
    Option Str × DB :=
  let subsystem_id := subsystem_vendor_id ++ ' ' :: subsystem_device_id
  let p1 := mapIndexOp vendor_id {} db
  let p2 := mapIndexOp model_id {} p1.1.models
  let ve2 : PciVendor := { p1.1 with models := p2.2 }
  let db2 := aset vendor_id ve2 p1.2
  match alookup subsystem_id p2.1.subsystemInfo with
  | none => (none, db2)
  | some s => (some s, db2)

/-- Pure three-level lookup (no operator[] insertion), stating what
"the composed key is present under the given vendor and model" means. -/
def subsysLookupPure (db : DB) (vendor_id model_id key : Str) : Option Str :=
  match alookup vendor_id db with
  | none => none
  | some ve =>
    match alookup model_id ve.models with
    | none => none
    | some me => alookup key me.subsystemInfo

/-- The seven udev attribute values read for one device;
UdevEventPublisher::getValue returns the empty string for an absent
attribute. -/
structure DeviceAttrs where
  slot : Str := []
  cls : Str := []
  driver : Str := []
  vendor : Str := []
  model : Str := []
  pciId : Str := []
  subsysId : Str := []
deriving DecidableEq, Repr

/-- One output Row; a field that is never assigned stays the empty
string, as with the C++ string-to-string map. -/
structure Row where
  pci_slot : Str := []
  pci_class : Str := []
  driver : Str := []
  vendor : Str := []
  model : Str := []
  vendor_id : Str := []
  model_id : Str := []
  subsystem_vendor_id : Str := []
  subsystem_model_id : Str := []
  subsystem_vendor : Str := []
  subsystem_model : Str := []
deriving DecidableEq, Repr

/-- The trailing defaulting policy: empty vendor_id and model_id become
the literal "0". -/
def finalizeRow (r : Row) : Row :=
  let r1 := if r.vendor_id = [] then { r with vendor_id := "0".toList } else r
  if r1.model_id = [] then { r1 with model_id := "0".toList } else r1

/-- The raw-attribute defaults written into the row before any
database enrichment. -/
def rawRow (dev : DeviceAttrs) : Row :=
  { pci_slot := dev.slot, pci_class := dev.cls, driver := dev.driver,
    vendor := dev.vendor, model := dev.model }

/-- The enrichment block guarded by ids.size() == 2 in genPCIDevices:
vendor/model lookups, then the subsystem block guarded by
subsystem_ids.size() == 2. -/
def enrichIds (pcidb : DB) (dev : DeviceAttrs) (r1 : Row) (vid mid : Str) : Row × DB :=
  let r2 := match getVendorName pcidb vid with
    | some content => { r1 with vendor := content }
    | none => r1
  let r3 := match getModel pcidb vid mid with
    | some content => { r2 with model := content }
    | none => r2
  match splitOnColon (toLowerStr dev.subsysId) with
  | [svid, sdid] =>
    let r4 := { r3 with subsystem_vendor_id := svid, subsystem_model_id := sdid }
    let r5 := match getVendorName pcidb svid with
      | some content => { r4 with subsystem_vendor := content }
      | none => r4
    match getSubsystemInfo pcidb vid mid svid sdid with
    | (some content, db2) => ({ r5 with subsystem_model := content }, db2)
    | (none, db2) => (r5, db2)
  | _ => (r3, pcidb)

/-- The body of the udev_list_entry_foreach loop for one device:
assemble the row from raw attributes, split the lowercased PCI_ID on
the colon, enrich from the database when it yields exactly two parts,
and apply the final defaulting.  The database is threaded through
because getSubsystemInfo can mutate it. -/
def genRow (pcidb : DB) (dev : DeviceAttrs) : Row × DB :=
  let p := match splitOnColon (toLowerStr dev.pciId) with
    | [vid, mid] =>
      let r1 : Row := { rawRow dev with vendor_id := vid, model_id := mid }
      enrichIds pcidb dev r1 vid mid
    | _ => (rawRow dev, pcidb)
  (finalizeRow p.1, p.2)

/-- The enumeration loop: one row per enumerated device, in order. -/
def genRows (pcidb : DB) : List DeviceAttrs → List Row
  | [] => []
  | dev :: devs =>
    let p := genRow pcidb dev
    p.1 :: genRows p.2 devs

/-- genPCIDevices.  udevOk models both udev handle acquisitions
succeeding; fileOk models std::ifstream(kPciIdsPath) opening without
failure — when it fails the function logs an error and returns the
(empty) results immediately.  Except.error models the PciDB
constructor throwing.  Per-device udev materialization failures (which
short-circuit with partial results) are not modelled: every device in
the list is materializable. -/
def genPCIDevices (udevOk fileOk : Bool) (fileLines : List Str)
    (devices : List DeviceAttrs) : Except Unit (List Row) :=
  if udevOk = false then .ok []
  else if fileOk = false then .ok []
  else
    match pciDBparse fileLines with
    | .error e => .error e
    | .ok db => .ok (genRows db devices)

/-! Abstract description of a well-formed pci.ids database and its
canonical rendering in the documented line format: a vendor line
`<4-hex-vendor-id>  <vendor-name>` followed by its model lines
`\t<4-hex-model-id>  <model-description>`. -/

structure ModelSpecE where
  mid : Str
  mdesc : Str
deriving DecidableEq, Repr

structure VendorSpecE where
  vid : Str
  vname : Str
  vmodels : List ModelSpecE
deriving DecidableEq, Repr

def renderVendorLine (v : VendorSpecE) : Str := v.vid ++ ' ' :: ' ' :: v.vname

def renderModelLine (m : ModelSpecE) : Str := '\t' :: (m.mid ++ ' ' :: ' ' :: m.mdesc)

def renderVendor (v : VendorSpecE) : List Str :=
  renderVendorLine v :: v.vmodels.map renderModelLine

def renderDB : List VendorSpecE → List Str
  | [] => []
  | v :: vs => renderVendor v ++ renderDB vs

/-- The in-memory entry the parser builds for one rendered model line. -/
def modelEntry (m : ModelSpecE) : PciModel :=
  { id := m.mid, desc := m.mdesc, subsystemInfo := [] }

/-- The in-memory entry the parser builds for one rendered vendor block. -/
def vendorEntry (v : VendorSpecE) : PciVendor :=
  { id := v.vid, name := v.vname, models := v.vmodels.map (fun m => (m.mid, modelEntry m)) }

def dbOf (vs : List VendorSpecE) : DB := vs.map (fun v => (v.vid, vendorEntry v))

/-- Well-formedness of one model description: a 4-hex-digit ID and a
nonempty description. -/
@[reducible] def modelOk (m : ModelSpecE) : Prop :=
  m.mid.length = 4 ∧ (∀ c ∈ m.mid, isPciHex c = true) ∧ m.mdesc ≠ []

/-- Well-formedness of one vendor block: a 4-hex-digit ID other than
ffff, a nonempty name, well-formed models with distinct IDs. -/
@[reducible] def vendorOk (v : VendorSpecE) : Prop :=
  v.vid.length = 4 ∧ (∀ c ∈ v.vid, isPciHex c = true) ∧ v.vid ≠ "ffff".toList ∧
  v.vname ≠ [] ∧ (∀ m ∈ v.vmodels, modelOk m) ∧ (v.vmodels.map ModelSpecE.mid).Nodup

/-- Well-formedness of a whole database description. -/
@[reducible] def specOk (vs : List VendorSpecE) : Prop :=
  (∀ v ∈ vs, vendorOk v) ∧ (vs.map VendorSpecE.vid).Nodup

/-- Parse invariant: the terminating vendor ID ffff is never registered
and is never the current-vendor cursor. -/
def noFFFF (st : ParseState) : Prop :=
  alookup ("ffff".toList) st.db = none ∧ st.curVendor ≠ "ffff".toList

/-! Concrete inputs used by the per-claim evaluation theorems. -/

/-- A stream whose third line is subsystem-classified with length
exactly 12: greater than 11, so it passes the parser's guard, but too
short for line.substr(13). -/
def c1lines : List Str :=
  ["8086  Intel".toList, "\t1234  Dev".toList, "\t\t00 0000  x".toList]

def c3dev : DeviceAttrs := { slot := "0000:00:02.0".toList }

def c4dev : DeviceAttrs :=
  { pciId := "badid".toList, vendor := "RawVendor".toList, model := "RawModel".toList }

def c4cexDev : DeviceAttrs := { pciId := "8086:".toList }

def c5pre : List Str := ["8086  Intel".toList]

def c5st : ParseState :=
  { db := [("8086".toList,
            { id := "8086".toList, name := "Intel".toList, models := [] })],
    curVendor := "8086".toList, curModel := [] }

def c6vs : List VendorSpecE :=
  [{ vid := "8086".toList, vname := "Intel".toList,
     vmodels := [{ mid := "1234".toList, mdesc := "Test Device".toList }] }]

def c7modelLine : Str := "\t1234  Some Device".toList

def c7subsysLine : Str := "\t\t1234 5678  Some Subsystem".toList

def c8lines : List Str := ["8086  Intel".toList, "\t1234  Test Device".toList]

def c8db : DB :=
  [("8086".toList,
    { id := "8086".toList, name := "Intel".toList,
      models := [("1234".toList,
                  { id := "1234".toList, desc := "Test Device".toList,
                    subsystemInfo := [] })] })]

def c8dev : DeviceAttrs :=
  { slot := "0000:00:02.0".toList, pciId := "8086:1234".toList,
    vendor := "RawVendor".toList, model := "RawModel".toList }

def c9db : DB :=
  [("8086".toList,
    { id := "8086".toList, name := "Intel".toList,
      models := [("1234".toList,
                  { id := "1234".toList, desc := "Test Device".toList,
                    subsystemInfo := [("17aa 1056".toList, "ThinkPad".toList)] })] })]

def c9dev : DeviceAttrs :=
  { pciId := "8086:1234".toList, subsysId := "17aa:1056".toList }

def c10dev : DeviceAttrs := { pciId := "8086:1234".toList, subsysId := [] }

/-! Association-list lemmas. -/

theorem alookup_aset_self {α : Type} (k : Str) (v : α) (l : List (Str × α)) :
    alookup k (aset k v l) = some v := by
  induction l with
  | nil => simp [alookup, aset]
  | cons p t ih =>
    obtain ⟨k2, v2⟩ := p
    by_cases h : k2 = k
    · subst h; simp [aset, alookup]
    · simp [aset, alookup, h, ih]

theorem alookup_aset_ne {α : Type} (k k2 : Str) (v : α) (l : List (Str × α))
    (h : k ≠ k2) : alookup k2 (aset k v l) = alookup k2 l := by
  induction l with
  | nil => simp [alookup, aset, h]
  | cons p t ih =>
    obtain ⟨k3, v3⟩ := p
    by_cases h3 : k3 = k
    · subst h3; simp [aset, alookup, h]
    · simp [aset, alookup, h3, ih]

theorem aset_of_none {α : Type} (k : Str) (v : α) (l : List (Str × α))
    (h : alookup k l = none) : aset k v l = l ++ [(k, v)] := by
  induction l with
  | nil => simp [aset]
  | cons p t ih =>
    obtain ⟨k2, v2⟩ := p
    by_cases h2 : k2 = k
    · subst h2; simp [alookup] at h
    · simp [alookup, h2] at h
      simp [aset, h2, ih h]

theorem alookup_append_none {α : Type} (k : Str) (l1 l2 : List (Str × α))
    (h : alookup k l1 = none) : alookup k (l1 ++ l2) = alookup k l2 := by
  induction l1 with
  | nil => simp
  | cons p t ih =>
    obtain ⟨k2, v2⟩ := p
    by_cases h2 : k2 = k
    · subst h2; simp [alookup] at h
    · simp [alookup, h2] at h ⊢
      exact ih h

theorem aset_append_none {α : Type} (k : Str) (v : α) (l1 l2 : List (Str × α))
    (h : alookup k l1 = none) : aset k v (l1 ++ l2) = l1 ++ aset k v l2 := by
  induction l1 with
  | nil => simp
  | cons p t ih =>
    obtain ⟨k2, v2⟩ := p
    by_cases h2 : k2 = k
    · subst h2; simp [alookup] at h
    · simp [alookup, h2] at h
      simp [aset, h2, ih h]

theorem alookup_map_pairs {β γ : Type} (key : γ → Str) (val : γ → β)
    (l : List γ) (x : γ) (hnd : (l.map key).Nodup) (hx : x ∈ l) :
    alookup (key x) (l.map fun y => (key y, val y)) = some (val x) := by
  induction l with
  | nil => cases hx
  | cons y t ih =>
    simp only [List.map_cons, List.nodup_cons] at hnd
    rcases List.mem_cons.mp hx with h | h
    · subst h; simp [alookup]
    · have hne : key y ≠ key x := by
        intro he
        exact hnd.1 (he ▸ List.mem_map_of_mem key h)
      simp only [List.map_cons, alookup, if_neg hne]
      exact ih hnd.2 h

theorem take_append_len {α : Type} (l1 l2 : List α) :
    (l1 ++ l2).take l1.length = l1 := by
  induction l1 with
  | nil => simp
  | cons a t ih => simp [ih]

theorem drop_append_len {α : Type} (l1 l2 : List α) :
    (l1 ++ l2).drop l1.length = l2 := by
  induction l1 with
  | nil => simp
  | cons a t ih => simp [ih]

/-! Case equations for stepLine, one per branch of the constructor
switch. -/

theorem stepLine_skip (st : ParseState) (l : Str) (h : lineSkipped l = true) :
    stepLine st l = StepOut.next st := by
  simp [stepLine, h]

theorem stepLine_nohex (st : ParseState) (l : Str) (h : lineSkipped l = false)
    (hf : findFirstHex l = none) : stepLine st l = StepOut.next st := by
  simp [stepLine, h, hf]

theorem stepLine_other (st : ParseState) (l : Str) (n : Nat)
    (h : lineSkipped l = false) (hf : findFirstHex l = some (n + 3)) :
    stepLine st l = StepOut.next st := by
  simp [stepLine, h, hf]

theorem stepLine_vendor_ffff (st : ParseState) (l : Str)
    (h : lineSkipped l = false) (hf : findFirstHex l = some 0)
    (hff : l.take 4 = "ffff".toList) : stepLine st l = StepOut.stop st.db := by
  simp [stepLine, h, hf, hff]

theorem stepLine_vendor (st : ParseState) (l : Str)
    (h : lineSkipped l = false) (hf : findFirstHex l = some 0)
    (hff : l.take 4 ≠ "ffff".toList) :
    stepLine st l = StepOut.next
      { db := aset (l.take 4) { id := l.take 4, name := l.drop 6, models := [] } st.db,
        curVendor := l.take 4, curModel := st.curModel } := by
  have hff2 : ¬ l.take 4 = ['f', 'f', 'f', 'f'] := by simpa using hff
  simp [stepLine, h, hf, hff2]

theorem stepLine_model_vnone (st : ParseState) (l : Str)
    (h : lineSkipped l = false) (hf : findFirstHex l = some 1)
    (hv : alookup st.curVendor st.db = none) : stepLine st l = StepOut.next st := by
  simp [stepLine, h, hf, hv]

theorem stepLine_model_short (st : ParseState) (l : Str) (ve : PciVendor)
    (h : lineSkipped l = false) (hf : findFirstHex l = some 1)
    (hv : alookup st.curVendor st.db = some ve) (hlen : ¬ 7 < l.length) :
    stepLine st l = StepOut.next st := by
  simp [stepLine, h, hf, hv, hlen]

theorem stepLine_model (st : ParseState) (l : Str) (ve : PciVendor)
    (h : lineSkipped l = false) (hf : findFirstHex l = some 1)
    (hv : alookup st.curVendor st.db = some ve) (hlen : 7 < l.length) :
    stepLine st l = StepOut.next
      { db := aset st.curVendor ({ ve with models := aset ((l.drop 1).take 4) ({ id := (l.drop 1).take 4, desc := l.drop 7, subsystemInfo := [] }) ve.models }) st.db,
        curVendor := st.curVendor, curModel := (l.drop 1).take 4 } := by
  simp [stepLine, h, hf, hv, hlen]

theorem stepLine_subsys_vnone (st : ParseState) (l : Str)
    (h : lineSkipped l = false) (hf : findFirstHex l = some 2)
    (hv : alookup st.curVendor st.db = none) : stepLine st l = StepOut.next st := by
  simp [stepLine, h, hf, hv]

theorem stepLine_subsys_mnone (st : ParseState) (l : Str) (ve : PciVendor)
    (h : lineSkipped l = false) (hf : findFirstHex l = some 2)
    (hv : alookup st.curVendor st.db = some ve)
    (hm : alookup st.curModel ve.models = none) : stepLine st l = StepOut.next st := by
  simp [stepLine, h, hf, hv, hm]

theorem stepLine_subsys_short (st : ParseState) (l : Str) (ve : PciVendor) (me : PciModel)
    (h : lineSkipped l = false) (hf : findFirstHex l = some 2)
    (hv : alookup st.curVendor st.db = some ve)
    (hm : alookup st.curModel ve.models = some me) (hlen : ¬ 11 < l.length) :
    stepLine st l = StepOut.next st := by
  simp [stepLine, h, hf, hv, hm, hlen]

theorem stepLine_subsys_thrown (st : ParseState) (l : Str) (ve : PciVendor) (me : PciModel)
    (h : lineSkipped l = false) (hf : findFirstHex l = some 2)
    (hv : alookup st.curVendor st.db = some ve)
    (hm : alookup st.curModel ve.models = some me)
    (hlen : 11 < l.length) (h13 : ¬ 13 ≤ l.length) :
    stepLine st l = StepOut.thrown := by
  simp [stepLine, h, hf, hv, hm, hlen, h13]

theorem stepLine_subsys (st : ParseState) (l : Str) (ve : PciVendor) (me : PciModel)
    (h : lineSkipped l = false) (hf : findFirstHex l = some 2)
    (hv : alookup st.curVendor st.db = some ve)
    (hm : alookup st.curModel ve.models = some me)
    (hlen : 11 < l.length) (h13 : 13 ≤ l.length) :
    stepLine st l = StepOut.next
      { st with db := aset st.curVendor ({ ve with models := aset st.curModel ({ me with subsystemInfo := aset ((l.drop 2).take 9) (l.drop 13) me.subsystemInfo }) ve.models }) st.db } := by
  simp [stepLine, h, hf, hv, hm, hlen, h13]

/-! Composition lemmas for the constructor loop. -/

theorem parseLines_append (ls1 : List Str) : ∀ (st st2 : ParseState) (ls2 : List Str),
    runLines st ls1 = some st2 → parseLines st (ls1 ++ ls2) = parseLines st2 ls2 := by
  induction ls1 with
  | nil =>
    intro st st2 ls2 h
    simp only [runLines, Option.some.injEq] at h
    subst h
    rw [List.nil_append]
  | cons l t ih =>
    intro st st2 ls2 h
    simp only [runLines] at h
    cases hs : stepLine st l with
    | next st3 =>
      rw [hs] at h
      rw [List.cons_append]
      simp only [parseLines, hs]
      exact ih st3 st2 ls2 h
    | stop db => rw [hs] at h; simp at h
    | thrown => rw [hs] at h; simp at h

theorem runLines_append (ls1 : List Str) : ∀ (st st2 : ParseState) (ls2 : List Str),
    runLines st ls1 = some st2 → runLines st (ls1 ++ ls2) = runLines st2 ls2 := by
  induction ls1 with
  | nil =>
    intro st st2 ls2 h
    simp only [runLines, Option.some.injEq] at h
    subst h
    rw [List.nil_append]
  | cons l t ih =>
    intro st st2 ls2 h
    simp only [runLines] at h
    cases hs : stepLine st l with
    | next st3 =>
      rw [hs] at h
      rw [List.cons_append]
      simp only [runLines, hs]
      exact ih st3 st2 ls2 h
    | stop db => rw [hs] at h; simp at h
    | thrown => rw [hs] at h; simp at h

theorem parseLines_of_runLines (ls : List Str) : ∀ (st st2 : ParseState),
    runLines st ls = some st2 → parseLines st ls = Except.ok st2.db := by
  induction ls with
  | nil =>
    intro st st2 h
    simp only [runLines, Option.some.injEq] at h
    subst h
    rfl
  | cons l t ih =>
    intro st st2 h
    simp only [runLines] at h
    cases hs : stepLine st l with
    | next st3 =>
      rw [hs] at h
      simp only [parseLines, hs]
      exact ih st3 st2 h
    | stop db => rw [hs] at h; simp at h
    | thrown => rw [hs] at h; simp at h

/-! Claim theorems. -/

/-- C1: the claim says database parsing never throws and in particular
skips a subsystem-classified line whose length is greater than 11 but
less than 13.  The code is wrong: on such a line (length 12) the guard
line.size() > 11 passes and line.substr(13) throws std::out_of_range,
so the constructor aborts.  This theorem evaluates the parser at the
failing stream. -/
theorem c1_parse_throws_on_length12_subsystem_line :
    pciDBparse c1lines = Except.error () := by rfl

/-- C2: the claim says no lookup mutates the database, in particular
getSubsystemInfo with an absent vendor or model ID inserts nothing.
The code is wrong: its unguarded std::map operator[] accesses insert
value-initialized vendor and model entries.  This theorem evaluates
getSubsystemInfo on an empty database: the returned database gained a
vendor "dead" holding a model "beef". -/
theorem c2_getSubsystemInfo_inserts_absent_vendor_and_model :
    getSubsystemInfo [] ("dead".toList) ("beef".toList) ("0000".toList) ("0000".toList) =
      (none,
       [("dead".toList,
         { id := [], name := [],
           models := [("beef".toList,
                       { id := [], desc := [], subsystemInfo := [] })] })]) ∧
    (getSubsystemInfo [] ("dead".toList) ("beef".toList) ("0000".toList)
        ("0000".toList)).2 ≠ ([] : DB) := by
  constructor
  · rfl
  · decide

/-- C3 counterexample: with the database file unopenable and one
enumerated device, genPCIDevices returns the empty row sequence, not
one row per device as the claim states. -/
theorem c3_counterexample_file_failure_returns_no_rows :
    genPCIDevices true false [] [c3dev] = Except.ok [] ∧
    List.length ([] : List Row) ≠ List.length [c3dev] := by
  constructor
  · rfl
  · decide

/-- C3 (amended): when the database file cannot be opened,
genPCIDevices logs an error and returns the empty row sequence
immediately, regardless of the file contents or the enumerated
devices; device enumeration does not proceed, and the process does not
fail. -/
theorem c3_file_open_failure_yields_empty_results
    (fileLines : List Str) (devices : List DeviceAttrs) :
    genPCIDevices true false fileLines devices = Except.ok [] := by rfl

/-- C4 counterexample: the raw combined ID "8086:" does not split into
two non-empty parts, yet the produced row has vendor_id = "8086", not
"0" — boost::split yields two parts, one empty, so the code takes the
enrichment branch. -/
theorem c4_counterexample_two_part_split_with_empty_part :
    (genRow [] c4cexDev).1.vendor_id = "8086".toList ∧
    "8086".toList ≠ "0".toList := by decide

/-- C4 (amended): for every device whose combined vendor:model ID
attribute does not split on the colon into exactly two parts — parts
may be empty and still count, so "8086:" is excluded — the produced
row has vendor_id = "0" and model_id = "0", the vendor and model
fields retain their raw-attribute defaults, all other fields are
untouched, and no database lookup is performed: the result does not
depend on the database and returns it unchanged. -/
theorem c4_no_enrichment_when_split_count_ne_two (pcidb : DB) (dev : DeviceAttrs)
    (h : (splitOnColon (toLowerStr dev.pciId)).length ≠ 2) :
    genRow pcidb dev =
      ({ pci_slot := dev.slot, pci_class := dev.cls, driver := dev.driver,
         vendor := dev.vendor, model := dev.model,
         vendor_id := "0".toList, model_id := "0".toList,
         subsystem_vendor_id := [], subsystem_model_id := [],
         subsystem_vendor := [], subsystem_model := [] }, pcidb) := by
  cases e : splitOnColon (toLowerStr dev.pciId) with
  | nil => simp [genRow, e, finalizeRow, rawRow]
  | cons a t =>
    cases t with
    | nil => simp [genRow, e, finalizeRow, rawRow]
    | cons b t2 =>
      cases t2 with
      | nil => exact absurd (by rw [e]; rfl) h
      | cons c3 t3 => simp [genRow, e, finalizeRow, rawRow]

/-- Witness for C4: the unsplittable raw ID "badid" on the empty
database yields the defaulted row with the raw attributes kept. -/
theorem c4_no_enrichment_witness :
    genRow [] c4dev =
      ({ vendor := "RawVendor".toList, model := "RawModel".toList,
         vendor_id := "0".toList, model_id := "0".toList }, ([] : DB)) :=
  c4_no_enrichment_when_split_count_ne_two [] c4dev (by decide)

/-- C8: with the database built from vendor 8086 "Intel" and model
1234 "Test Device", a device with raw ID "8086:1234" resolves to
vendor_id 8086, model_id 1234, and the database names override the
raw vendor/model attribute defaults. -/
theorem c8_lookups_override_raw_defaults :
    pciDBparse c8lines = Except.ok c8db ∧
    (genRow c8db c8dev).1.vendor_id = "8086".toList ∧
    (genRow c8db c8dev).1.model_id = "1234".toList ∧
    (genRow c8db c8dev).1.vendor = "Intel".toList ∧
    (genRow c8db c8dev).1.model = "Test Device".toList := by
  refine ⟨by rfl, by decide, by decide, by decide, by decide⟩

/-! The ffff invariant: no reachable parse state registers vendor ffff
or points its vendor cursor at it. -/

theorem stepLine_next_noFFFF (st st2 : ParseState) (l : Str) (hinv : noFFFF st)
    (hs : stepLine st l = StepOut.next st2) : noFFFF st2 := by
  obtain ⟨h1, h2⟩ := hinv
  by_cases hsk : lineSkipped l = true
  · rw [stepLine_skip st l hsk] at hs
    injection hs with h3
    subst h3
    exact ⟨h1, h2⟩
  · have hsk2 : lineSkipped l = false := by
      revert hsk; cases lineSkipped l <;> simp
    rcases hf : findFirstHex l with _ | n
    · rw [stepLine_nohex st l hsk2 hf] at hs
      injection hs with h3
      subst h3
      exact ⟨h1, h2⟩
    · match n with
      | 0 =>
        by_cases hff : l.take 4 = "ffff".toList
        · rw [stepLine_vendor_ffff st l hsk2 hf hff] at hs
          simp at hs
        · rw [stepLine_vendor st l hsk2 hf hff] at hs
          injection hs with h3
          subst h3
          exact ⟨by rw [alookup_aset_ne (l.take 4) ("ffff".toList) _ st.db hff]; exact h1, hff⟩
      | 1 =>
        rcases hv : alookup st.curVendor st.db with _ | ve
        · rw [stepLine_model_vnone st l hsk2 hf hv] at hs
          injection hs with h3
          subst h3
          exact ⟨h1, h2⟩
        · by_cases hlen : 7 < l.length
          · rw [stepLine_model st l ve hsk2 hf hv hlen] at hs
            injection hs with h3
            subst h3
            exact ⟨by rw [alookup_aset_ne st.curVendor ("ffff".toList) _ st.db h2]; exact h1, h2⟩
          · rw [stepLine_model_short st l ve hsk2 hf hv hlen] at hs
            injection hs with h3
            subst h3
            exact ⟨h1, h2⟩
      | 2 =>
        rcases hv : alookup st.curVendor st.db with _ | ve
        · rw [stepLine_subsys_vnone st l hsk2 hf hv] at hs
          injection hs with h3
          subst h3
          exact ⟨h1, h2⟩
        · rcases hm : alookup st.curModel ve.models with _ | me
          · rw [stepLine_subsys_mnone st l ve hsk2 hf hv hm] at hs
            injection hs with h3
            subst h3
            exact ⟨h1, h2⟩
          · by_cases hlen : 11 < l.length
            · by_cases h13 : 13 ≤ l.length
              · rw [stepLine_subsys st l ve me hsk2 hf hv hm hlen h13] at hs
                injection hs with h3
                subst h3
                exact ⟨by rw [alookup_aset_ne st.curVendor ("ffff".toList) _ st.db h2]; exact h1, h2⟩
              · rw [stepLine_subsys_thrown st l ve me hsk2 hf hv hm hlen h13] at hs
                simp at hs
            · rw [stepLine_subsys_short st l ve me hsk2 hf hv hm hlen] at hs
              injection hs with h3
              subst h3
              exact ⟨h1, h2⟩
      | (m + 3) =>
        rw [stepLine_other st l m hsk2 hf] at hs
        injection hs with h3
        subst h3
        exact ⟨h1, h2⟩

theorem runLines_noFFFF (ls : List Str) : ∀ (st st2 : ParseState),
    noFFFF st → runLines st ls = some st2 → noFFFF st2 := by
  induction ls with
  | nil =>
    intro st st2 h hr
    simp only [runLines, Option.some.injEq] at hr
    subst hr
    exact h
  | cons l t ih =>
    intro st st2 h hr
    simp only [runLines] at hr
    cases hs : stepLine st l with
    | next st3 =>
      rw [hs] at hr
      exact ih st3 st2 (stepLine_next_noFFFF st st3 l h hs) hr
    | stop db => rw [hs] at hr; simp at hr
    | thrown => rw [hs] at hr; simp at hr

/-- C5: once a vendor-classified line whose first four characters are
ffff is reached (from any prefix of the stream that parses without
stopping or throwing), parsing returns immediately with the database
built so far: nothing is registered for ffff and no subsequent line of
the stream alters the database. -/
theorem c5_ffff_stops_parsing (pre post : List Str) (l : Str) (st : ParseState)
    (hrun : runLines {} pre = some st)
    (hskip : lineSkipped l = false)
    (hclass : findFirstHex l = some 0)
    (hffff : l.take 4 = "ffff".toList) :
    parseLines {} (pre ++ l :: post) = Except.ok st.db ∧
    alookup ("ffff".toList) st.db = none := by
  constructor
  · rw [parseLines_append pre {} st (l :: post) hrun]
    simp only [parseLines, stepLine_vendor_ffff st l hskip hclass hffff]
  · exact (runLines_noFFFF pre {} st ⟨rfl, by decide⟩ hrun).1

/-- Witness for C5: a one-vendor prefix followed by the ffff line and
a further vendor line parses to exactly the prefix database, with no
ffff entry. -/
theorem c5_ffff_stops_parsing_witness :
    parseLines {} (c5pre ++ "ffff  Illegal".toList :: ["dead  Beef".toList]) =
      Except.ok c5st.db ∧
    alookup ("ffff".toList) c5st.db = none :=
  c5_ffff_stops_parsing c5pre ["dead  Beef".toList] ("ffff  Illegal".toList) c5st
    (by decide) (by decide) (by decide) (by decide)

/-- C7: an out-of-order indented line leaves the parse state — in
particular the database — entirely unchanged: a model-classified line
when the current vendor cursor is not registered, and a
subsystem-classified line when the current model cursor is not
registered under the current vendor (including when no vendor is
registered), register nothing. -/
theorem c7_out_of_order_lines_register_nothing (st : ParseState) (l : Str) :
    ((findFirstHex l = some 1 ∧ alookup st.curVendor st.db = none) →
        stepLine st l = StepOut.next st) ∧
    ((findFirstHex l = some 2 ∧
        ∀ ve, alookup st.curVendor st.db = some ve →
          alookup st.curModel ve.models = none) →
        stepLine st l = StepOut.next st) := by
  constructor
  · rintro ⟨h1, h2⟩
    by_cases hsk : lineSkipped l = true
    · exact stepLine_skip st l hsk
    · have hsk2 : lineSkipped l = false := by
        revert hsk; cases lineSkipped l <;> simp
      exact stepLine_model_vnone st l hsk2 h1 h2
  · rintro ⟨h1, h2⟩
    by_cases hsk : lineSkipped l = true
    · exact stepLine_skip st l hsk
    · have hsk2 : lineSkipped l = false := by
        revert hsk; cases lineSkipped l <;> simp
      rcases hv : alookup st.curVendor st.db with _ | ve
      · exact stepLine_subsys_vnone st l hsk2 h1 hv
      · exact stepLine_subsys_mnone st l ve hsk2 h1 hv (h2 ve hv)

/-- Witness for C7: a model line and a subsystem line fed to the
initial (empty) parse state change nothing. -/
theorem c7_out_of_order_witness :
    stepLine {} c7modelLine = StepOut.next {} ∧
    stepLine {} c7subsysLine = StepOut.next {} :=
  ⟨(c7_out_of_order_lines_register_nothing {} c7modelLine).1 ⟨by decide, by decide⟩,
   (c7_out_of_order_lines_register_nothing {} c7subsysLine).2
     ⟨by decide, fun ve h => by simp [alookup] at h⟩⟩

/-! Row-generation helper lemmas. -/

theorem getSubsystemInfo_fst (db : DB) (v m sv sd : Str) :
    (getSubsystemInfo db v m sv sd).1 = subsysLookupPure db v m (sv ++ ' ' :: sd) := by
  unfold getSubsystemInfo subsysLookupPure mapIndexOp
  rcases hv : alookup v db with _ | ve
  · simp only [hv]
    rcases hk : alookup (sv ++ ' ' :: sd) (([] : List (Str × Str))) with _ | s
    · simp [alookup]
    · simp [alookup] at hk
  · simp only [hv]
    rcases hm : alookup m ve.models with _ | me
    · simp only [hm]
      rcases hk : alookup (sv ++ ' ' :: sd) (([] : List (Str × Str))) with _ | s
      · simp [alookup]
      · simp [alookup] at hk
    · simp only [hm]
      rcases hk : alookup (sv ++ ' ' :: sd) me.subsystemInfo with _ | s <;> simp [hk]

theorem finalizeRow_fields (r : Row) :
    (finalizeRow r).pci_slot = r.pci_slot ∧
    (finalizeRow r).pci_class = r.pci_class ∧
    (finalizeRow r).driver = r.driver ∧
    (finalizeRow r).vendor = r.vendor ∧
    (finalizeRow r).model = r.model ∧
    (finalizeRow r).subsystem_vendor_id = r.subsystem_vendor_id ∧
    (finalizeRow r).subsystem_model_id = r.subsystem_model_id ∧
    (finalizeRow r).subsystem_vendor = r.subsystem_vendor ∧
    (finalizeRow r).subsystem_model = r.subsystem_model := by
  simp only [finalizeRow]
  split_ifs <;> exact ⟨rfl, rfl, rfl, rfl, rfl, rfl, rfl, rfl, rfl⟩

/-- The row produced without enrichment: when the combined ID does not
split into exactly two parts, genRow keeps the raw-attribute defaults,
defaults vendor_id and model_id to "0", and neither reads nor changes
the database. -/
theorem genRow_split_fail (pcidb : DB) (dev : DeviceAttrs)
    (h : (splitOnColon (toLowerStr dev.pciId)).length ≠ 2) :
    genRow pcidb dev =
      ({ pci_slot := dev.slot, pci_class := dev.cls, driver := dev.driver,
         vendor := dev.vendor, model := dev.model,
         vendor_id := "0".toList, model_id := "0".toList,
         subsystem_vendor_id := [], subsystem_model_id := [],
         subsystem_vendor := [], subsystem_model := [] }, pcidb) := by
  cases e : splitOnColon (toLowerStr dev.pciId) with
  | nil => simp [genRow, e, finalizeRow, rawRow]
  | cons a t =>
    cases t with
    | nil => simp [genRow, e, finalizeRow, rawRow]
    | cons b t2 =>
      cases t2 with
      | nil => exact absurd (by rw [e]; rfl) h
      | cons c3 t3 => simp [genRow, e, finalizeRow, rawRow]

/-- Subsystem fields of the enrichment block when the subsystem ID
attribute splits into exactly two parts: the IDs come from the split,
and subsystem_model is filled exactly when the composed key resolves. -/
theorem enrichIds_subsys_fields (pcidb : DB) (dev : DeviceAttrs) (r1 : Row)
    (vid mid svid sdid : Str)
    (hsub : splitOnColon (toLowerStr dev.subsysId) = [svid, sdid]) :
    (enrichIds pcidb dev r1 vid mid).1.subsystem_vendor_id = svid ∧
    (enrichIds pcidb dev r1 vid mid).1.subsystem_model_id = sdid ∧
    (enrichIds pcidb dev r1 vid mid).1.subsystem_model =
      (subsysLookupPure pcidb vid mid (svid ++ ' ' :: sdid)).getD r1.subsystem_model := by
  have h1 := getSubsystemInfo_fst pcidb vid mid svid sdid
  rcases hg : getSubsystemInfo pcidb vid mid svid sdid with ⟨res, db2⟩
  rw [hg] at h1
  simp only [enrichIds, hsub, hg]
  rw [← h1]
  cases res <;> cases getVendorName pcidb vid <;> cases getModel pcidb vid mid <;>
    cases getVendorName pcidb svid <;> simp

/-- Subsystem fields of the enrichment block when the subsystem ID
attribute does not split into exactly two parts: they are untouched. -/
theorem enrichIds_subsys_split_fail (pcidb : DB) (dev : DeviceAttrs) (r1 : Row)
    (vid mid : Str)
    (h : (splitOnColon (toLowerStr dev.subsysId)).length ≠ 2) :
    (enrichIds pcidb dev r1 vid mid).1.subsystem_vendor_id = r1.subsystem_vendor_id ∧
    (enrichIds pcidb dev r1 vid mid).1.subsystem_model_id = r1.subsystem_model_id ∧
    (enrichIds pcidb dev r1 vid mid).1.subsystem_vendor = r1.subsystem_vendor ∧
    (enrichIds pcidb dev r1 vid mid).1.subsystem_model = r1.subsystem_model := by
  cases e : splitOnColon (toLowerStr dev.subsysId) with
  | nil =>
    simp only [enrichIds, e]
    cases getVendorName pcidb vid <;> cases getModel pcidb vid mid <;> simp
  | cons a t =>
    cases t with
    | nil =>
      simp only [enrichIds, e]
      cases getVendorName pcidb vid <;> cases getModel pcidb vid mid <;> simp
    | cons b t2 =>
      cases t2 with
      | nil => exact absurd (by rw [e]; rfl) h
      | cons c3 t3 =>
        simp only [enrichIds, e]
        cases getVendorName pcidb vid <;> cases getModel pcidb vid mid <;> simp

/-- The row of genRow when the combined ID splits as [vid, mid] is the
finalized enrichment row. -/
theorem genRow_split_ok (pcidb : DB) (dev : DeviceAttrs) (vid mid : Str)
    (hids : splitOnColon (toLowerStr dev.pciId) = [vid, mid]) :
    genRow pcidb dev =
      (finalizeRow (enrichIds pcidb dev
          { rawRow dev with vendor_id := vid, model_id := mid } vid mid).1,
       (enrichIds pcidb dev
          { rawRow dev with vendor_id := vid, model_id := mid } vid mid).2) := by
  simp [genRow, hids]

/-- C9: for a device whose combined ID split succeeded as [vid, mid]
and whose subsystem ID attribute split into the two parts svid and
sdid, the row carries both split parts as subsystem IDs; when the
composed key "svid sdid" is present under vid/mid the stored
description becomes subsystem_model, and when it is absent
subsystem_model stays empty. -/
theorem c9_subsystem_resolution (pcidb : DB) (dev : DeviceAttrs) (vid mid svid sdid : Str)
    (hids : splitOnColon (toLowerStr dev.pciId) = [vid, mid])
    (hsub : splitOnColon (toLowerStr dev.subsysId) = [svid, sdid]) :
    (genRow pcidb dev).1.subsystem_vendor_id = svid ∧
    (genRow pcidb dev).1.subsystem_model_id = sdid ∧
    (∀ d, subsysLookupPure pcidb vid mid (svid ++ ' ' :: sdid) = some d →
        (genRow pcidb dev).1.subsystem_model = d) ∧
    (subsysLookupPure pcidb vid mid (svid ++ ' ' :: sdid) = none →
        (genRow pcidb dev).1.subsystem_model = []) := by
  have hrow := genRow_split_ok pcidb dev vid mid hids
  obtain ⟨ha, hb, hc⟩ := enrichIds_subsys_fields pcidb dev
    ({ rawRow dev with vendor_id := vid, model_id := mid }) vid mid svid sdid hsub
  have hfin := finalizeRow_fields (enrichIds pcidb dev
    ({ rawRow dev with vendor_id := vid, model_id := mid }) vid mid).1
  have hgr : (genRow pcidb dev).1 = finalizeRow (enrichIds pcidb dev
      ({ rawRow dev with vendor_id := vid, model_id := mid }) vid mid).1 := by
    rw [hrow]
  refine ⟨?_, ?_, ?_, ?_⟩
  · rw [hgr, hfin.2.2.2.2.2.1, ha]
  · rw [hgr, hfin.2.2.2.2.2.2.1, hb]
  · intro d hd
    rw [hgr, hfin.2.2.2.2.2.2.2.2, hc, hd]
    rfl
  · intro hd
    rw [hgr, hfin.2.2.2.2.2.2.2.2, hc, hd]
    rfl

/-- Witness for C9: the device 8086:1234 with subsystem 17aa:1056
against a database holding that subsystem entry gets its description
as subsystem_model. -/
theorem c9_subsystem_resolution_witness :
    (genRow c9db c9dev).1.subsystem_model = "ThinkPad".toList :=
  (c9_subsystem_resolution c9db c9dev ("8086".toList) ("1234".toList) ("17aa".toList)
      ("1056".toList) (by decide) (by decide)).2.2.1 ("ThinkPad".toList) (by decide)

/-- C10: the subsystem fields are populated only when both the
combined vendor:model ID and the subsystem ID attribute split into
exactly two parts; when either split fails, all four subsystem fields
stay empty, and in particular the "0" defaulting never applies to the
subsystem ID fields. -/
theorem c10_subsystem_fields_only_on_both_splits (pcidb : DB) (dev : DeviceAttrs)
    (h : (splitOnColon (toLowerStr dev.pciId)).length ≠ 2 ∨
         (splitOnColon (toLowerStr dev.subsysId)).length ≠ 2) :
    (genRow pcidb dev).1.subsystem_vendor_id = [] ∧
    (genRow pcidb dev).1.subsystem_model_id = [] ∧
    (genRow pcidb dev).1.subsystem_vendor = [] ∧
    (genRow pcidb dev).1.subsystem_model = [] ∧
    (genRow pcidb dev).1.subsystem_vendor_id ≠ "0".toList ∧
    (genRow pcidb dev).1.subsystem_model_id ≠ "0".toList := by
  rcases e : splitOnColon (toLowerStr dev.pciId) with _ | ⟨a, _ | ⟨b, _ | ⟨c3, t3⟩⟩⟩
  · have hfail := genRow_split_fail pcidb dev (by rw [e]; simp)
    rw [hfail]
    exact ⟨rfl, rfl, rfl, rfl, by simp, by simp⟩
  · have hfail := genRow_split_fail pcidb dev (by rw [e]; simp)
    rw [hfail]
    exact ⟨rfl, rfl, rfl, rfl, by simp, by simp⟩
  · rcases h with h1 | h2
    · rw [e] at h1
      simp at h1
    · have hrow := genRow_split_ok pcidb dev a b e
      obtain ⟨ha, hb, hc, hd⟩ := enrichIds_subsys_split_fail pcidb dev
        ({ rawRow dev with vendor_id := a, model_id := b }) a b h2
      have hfin := finalizeRow_fields (enrichIds pcidb dev
        ({ rawRow dev with vendor_id := a, model_id := b }) a b).1
      have hgr : (genRow pcidb dev).1 = finalizeRow (enrichIds pcidb dev
          ({ rawRow dev with vendor_id := a, model_id := b }) a b).1 := by
        rw [hrow]
      have h5 : (genRow pcidb dev).1.subsystem_vendor_id = [] := by
        rw [hgr, hfin.2.2.2.2.2.1, ha]; rfl
      have h6 : (genRow pcidb dev).1.subsystem_model_id = [] := by
        rw [hgr, hfin.2.2.2.2.2.2.1, hb]; rfl
      have h7 : (genRow pcidb dev).1.subsystem_vendor = [] := by
        rw [hgr, hfin.2.2.2.2.2.2.2.1, hc]; rfl
      have h8 : (genRow pcidb dev).1.subsystem_model = [] := by
        rw [hgr, hfin.2.2.2.2.2.2.2.2, hd]; rfl
      refine ⟨h5, h6, h7, h8, ?_, ?_⟩
      · rw [h5]; decide
      · rw [h6]; decide
  · have hfail := genRow_split_fail pcidb dev (by rw [e]; simp)
    rw [hfail]
    exact ⟨rfl, rfl, rfl, rfl, by simp, by simp⟩

/-- Witness for C10: a device whose subsystem ID attribute is empty
(splitting into one part) has all subsystem fields empty and not
defaulted to "0". -/
theorem c10_subsystem_fields_witness :
    (genRow [] c10dev).1.subsystem_vendor_id = [] ∧
    (genRow [] c10dev).1.subsystem_model_id = [] ∧
    (genRow [] c10dev).1.subsystem_vendor = [] ∧
    (genRow [] c10dev).1.subsystem_model = [] ∧
    (genRow [] c10dev).1.subsystem_vendor_id ≠ "0".toList ∧
    (genRow [] c10dev).1.subsystem_model_id ≠ "0".toList :=
  c10_subsystem_fields_only_on_both_splits [] c10dev (Or.inr (by decide))

/-! Facts about rendered database lines. -/

theorem isPciHex_ne_nl (c : Char) (h : isPciHex c = true) : c ≠ '\n' := by
  rintro rfl
  exact absurd h (by decide)

theorem isPciHex_ne_hash (c : Char) (h : isPciHex c = true) : c ≠ '#' := by
  rintro rfl
  exact absurd h (by decide)

theorem findFirstHex_cons_hex (c : Char) (t : Str) (h : isPciHex c = true) :
    findFirstHex (c :: t) = some 0 := by
  simp [findFirstHex, h]

theorem findFirstHex_cons_nonhex (c : Char) (t : Str) (h : isPciHex c = false) :
    findFirstHex (c :: t) = (findFirstHex t).map (fun n => n + 1) := by
  simp [findFirstHex, h]

theorem renderModelLine_drop7 (m : ModelSpecE) (hlen : m.mid.length = 4) :
    (renderModelLine m).drop 7 = m.mdesc := by
  have he : renderModelLine m = ('\t' :: (m.mid ++ [' ', ' '])) ++ m.mdesc := by
    simp [renderModelLine]
  have h7 : ('\t' :: (m.mid ++ [' ', ' '])).length = 7 := by simp [hlen]
  rw [he, ← h7, drop_append_len]

theorem step_vendorLine (st : ParseState) (v : VendorSpecE) (hok : vendorOk v) :
    stepLine st (renderVendorLine v) = StepOut.next
      { db := aset v.vid { id := v.vid, name := v.vname, models := [] } st.db,
        curVendor := v.vid, curModel := st.curModel } := by
  obtain ⟨hlen, hhex, hff, hname, hmok, hmnd⟩ := hok
  obtain ⟨c, t, hv⟩ : ∃ c t, v.vid = c :: t := by
    cases hvid : v.vid with
    | nil => rw [hvid] at hlen; simp at hlen
    | cons c t => exact ⟨c, t, rfl⟩
  have hc : isPciHex c = true := hhex c (by rw [hv]; exact List.mem_cons_self c t)
  have hline : renderVendorLine v = c :: (t ++ ' ' :: ' ' :: v.vname) := by
    simp [renderVendorLine, hv]
  have hnlen : 1 ≤ v.vname.length := List.length_pos.mpr hname
  have hskip : lineSkipped (renderVendorLine v) = false := by
    have h1 : ¬ (renderVendorLine v).length < 7 := by
      simp only [renderVendorLine, List.length_append, List.length_cons, hlen]
      omega
    have h2 : (renderVendorLine v).head? = some c := by rw [hline]; rfl
    simp [lineSkipped, h1, h2, isPciHex_ne_nl c hc, isPciHex_ne_hash c hc]
  have hfind : findFirstHex (renderVendorLine v) = some 0 := by
    rw [hline]
    exact findFirstHex_cons_hex c _ hc
  have htake : (renderVendorLine v).take 4 = v.vid := by
    have h0 := take_append_len v.vid (' ' :: ' ' :: v.vname)
    rw [hlen] at h0
    simpa [renderVendorLine] using h0
  have hdrop : (renderVendorLine v).drop 6 = v.vname := by
    have he : renderVendorLine v = (v.vid ++ [' ', ' ']) ++ v.vname := by
      simp [renderVendorLine]
    have h6 : (v.vid ++ [' ', ' ']).length = 6 := by simp [hlen]
    rw [he, ← h6, drop_append_len]
  have hffl : (renderVendorLine v).take 4 ≠ "ffff".toList := by
    rw [htake]
    exact hff
  rw [stepLine_vendor st (renderVendorLine v) hskip hfind hffl, htake, hdrop]

theorem step_modelLine (st : ParseState) (m : ModelSpecE) (vid2 vname2 : Str)
    (acc : List (Str × PciModel)) (hok : modelOk m)
    (hv : alookup st.curVendor st.db = some { id := vid2, name := vname2, models := acc }) :
    stepLine st (renderModelLine m) = StepOut.next
      { db := aset st.curVendor ({ id := vid2, name := vname2, models := aset m.mid (modelEntry m) acc }) st.db,
        curVendor := st.curVendor, curModel := m.mid } := by
  obtain ⟨hlen, hhex, hdesc⟩ := hok
  obtain ⟨c, t, hm⟩ : ∃ c t, m.mid = c :: t := by
    cases hmid : m.mid with
    | nil => rw [hmid] at hlen; simp at hlen
    | cons c t => exact ⟨c, t, rfl⟩
  have hc : isPciHex c = true := hhex c (by rw [hm]; exact List.mem_cons_self c t)
  have hdlen : 1 ≤ m.mdesc.length := List.length_pos.mpr hdesc
  have hlen7 : 7 < (renderModelLine m).length := by
    simp only [renderModelLine, List.length_cons, List.length_append, hlen]
    omega
  have hskip : lineSkipped (renderModelLine m) = false := by
    have h1 : ¬ (renderModelLine m).length < 7 := by omega
    have h2 : (renderModelLine m).head? = some '\t' := rfl
    simp [lineSkipped, h1, h2]
  have hfind : findFirstHex (renderModelLine m) = some 1 := by
    have hin : findFirstHex (m.mid ++ ' ' :: ' ' :: m.mdesc) = some 0 := by
      rw [hm, List.cons_append]
      exact findFirstHex_cons_hex c _ hc
    show findFirstHex ('\t' :: (m.mid ++ ' ' :: ' ' :: m.mdesc)) = some 1
    rw [findFirstHex_cons_nonhex '\t' _ (by decide), hin]
    rfl
  have htake : ((renderModelLine m).drop 1).take 4 = m.mid := by
    have h0 : (renderModelLine m).drop 1 = m.mid ++ ' ' :: ' ' :: m.mdesc := rfl
    rw [h0]
    have h2 := take_append_len m.mid (' ' :: ' ' :: m.mdesc)
    rw [hlen] at h2
    exact h2
  have hdrop : (renderModelLine m).drop 7 = m.mdesc := renderModelLine_drop7 m hlen
  rw [stepLine_model st (renderModelLine m)
      ({ id := vid2, name := vname2, models := acc }) hskip hfind hv hlen7, htake, hdrop]
  rfl

/-! Running the parser over one rendered vendor block and over a whole
rendered database. -/

theorem runLines_models (ms : List ModelSpecE) :
    ∀ (pre0 : DB) (vid vname : Str) (acc : List (Str × PciModel)) (cm : Str),
    (∀ m2 ∈ ms, modelOk m2) →
    alookup vid pre0 = none →
    (∀ m2 ∈ ms, alookup m2.mid acc = none) →
    (ms.map ModelSpecE.mid).Nodup →
    ∃ cm2, runLines
        { db := pre0 ++ [(vid, { id := vid, name := vname, models := acc })], curVendor := vid, curModel := cm }
        (ms.map renderModelLine) =
      some { db := pre0 ++ [(vid, { id := vid, name := vname, models := acc ++ ms.map (fun m2 => (m2.mid, modelEntry m2)) })], curVendor := vid, curModel := cm2 } := by
  induction ms with
  | nil =>
    intro pre0 vid vname acc cm _ _ _ _
    exact ⟨cm, by simp [runLines]⟩
  | cons m ms2 ih =>
    intro pre0 vid vname acc cm hok hpre hacc hnd
    have hv : alookup vid (pre0 ++ [(vid, ({ id := vid, name := vname, models := acc } : PciVendor))]) =
        some { id := vid, name := vname, models := acc } := by
      rw [alookup_append_none vid pre0 _ hpre]
      simp [alookup]
    have hstep := step_modelLine
      { db := pre0 ++ [(vid, { id := vid, name := vname, models := acc })],
        curVendor := vid, curModel := cm }
      m vid vname acc (hok m (List.mem_cons_self m ms2)) hv
    have hacc0 : alookup m.mid acc = none := hacc m (List.mem_cons_self m ms2)
    have hnd2 : (ms2.map ModelSpecE.mid).Nodup ∧ m.mid ∉ ms2.map ModelSpecE.mid := by
      simp only [List.map_cons, List.nodup_cons] at hnd
      exact ⟨hnd.2, hnd.1⟩
    obtain ⟨cm2, hrun⟩ := ih pre0 vid vname (acc ++ [(m.mid, modelEntry m)]) m.mid
      (fun m2 h2 => hok m2 (List.mem_cons_of_mem m h2))
      hpre
      (fun m2 h2 => by
        rw [alookup_append_none m2.mid acc _ (hacc m2 (List.mem_cons_of_mem m h2))]
        have hne : m.mid ≠ m2.mid := fun he => hnd2.2 (he ▸ List.mem_map_of_mem ModelSpecE.mid h2)
        simp [alookup, hne])
      hnd2.1
    refine ⟨cm2, ?_⟩
    rw [List.map_cons]
    simp only [runLines]
    rw [hstep]
    have hdb : aset vid ({ id := vid, name := vname, models := aset m.mid (modelEntry m) acc } : PciVendor)
        (pre0 ++ [(vid, ({ id := vid, name := vname, models := acc } : PciVendor))]) =
        pre0 ++ [(vid, ({ id := vid, name := vname, models := acc ++ [(m.mid, modelEntry m)] } : PciVendor))] := by
      rw [aset_append_none vid _ pre0 _ hpre, aset_of_none m.mid _ acc hacc0]
      simp [aset]
    rw [hdb]
    simpa using hrun

theorem runLines_vendor (v : VendorSpecE) (st : ParseState) (hok : vendorOk v)
    (hnew : alookup v.vid st.db = none) :
    ∃ cm2, runLines st (renderVendor v) =
      some { db := st.db ++ [(v.vid, vendorEntry v)], curVendor := v.vid, curModel := cm2 } := by
  have hstep := step_vendorLine st v hok
  obtain ⟨hlen, hhex, hff, hname, hmok, hmnd⟩ := hok
  obtain ⟨cm2, hrun⟩ := runLines_models v.vmodels st.db v.vid v.vname [] st.curModel hmok hnew
    (fun m2 h2 => rfl) hmnd
  refine ⟨cm2, ?_⟩
  show runLines st (renderVendorLine v :: v.vmodels.map renderModelLine) = _
  simp only [runLines]
  rw [hstep]
  rw [aset_of_none v.vid _ st.db hnew]
  simpa [vendorEntry] using hrun

theorem runLines_renderDB (vs : List VendorSpecE) :
    ∀ st : ParseState, (∀ v ∈ vs, vendorOk v) → (vs.map VendorSpecE.vid).Nodup →
    (∀ v ∈ vs, alookup v.vid st.db = none) →
    ∃ st2, runLines st (renderDB vs) = some st2 ∧ st2.db = st.db ++ dbOf vs := by
  induction vs with
  | nil =>
    intro st _ _ _
    exact ⟨st, by simp [renderDB, runLines], by simp [dbOf]⟩
  | cons v vs2 ih =>
    intro st hok hnd hfresh
    obtain ⟨cm2, hrun1⟩ := runLines_vendor v st (hok v (List.mem_cons_self v vs2))
      (hfresh v (List.mem_cons_self v vs2))
    have hnd2 : (vs2.map VendorSpecE.vid).Nodup ∧ v.vid ∉ vs2.map VendorSpecE.vid := by
      simp only [List.map_cons, List.nodup_cons] at hnd
      exact ⟨hnd.2, hnd.1⟩
    have hfresh2 : ∀ v2 ∈ vs2,
        alookup v2.vid (st.db ++ [(v.vid, vendorEntry v)]) = none := by
      intro v2 h2
      have h1 : alookup v2.vid st.db = none := hfresh v2 (List.mem_cons_of_mem v h2)
      have hne : v.vid ≠ v2.vid := fun he => hnd2.2 (he ▸ List.mem_map_of_mem VendorSpecE.vid h2)
      rw [alookup_append_none v2.vid st.db _ h1]
      simp [alookup, hne]
    obtain ⟨st2, hrun2, hdb2⟩ := ih
      { db := st.db ++ [(v.vid, vendorEntry v)], curVendor := v.vid, curModel := cm2 }
      (fun v2 h2 => hok v2 (List.mem_cons_of_mem v h2)) hnd2.1 hfresh2
    refine ⟨st2, ?_, ?_⟩
    · show runLines st (renderVendor v ++ renderDB vs2) = some st2
      rw [runLines_append (renderVendor v) st _ (renderDB vs2) hrun1]
      exact hrun2
    · rw [hdb2]
      show (st.db ++ [(v.vid, vendorEntry v)]) ++ dbOf vs2 = st.db ++ dbOf (v :: vs2)
      rw [List.append_assoc]
      simp [dbOf]

/-- C6: for every well-formed database description, parsing its
rendered line stream succeeds, and every model registered under a
vendor is afterwards reachable: getModel returns exactly the text of
that model's line from character 7 to end of line. -/
theorem c6_registered_models_reachable (vs : List VendorSpecE) (hok : specOk vs) :
    ∃ db, pciDBparse (renderDB vs) = Except.ok db ∧
      ∀ v ∈ vs, ∀ m ∈ v.vmodels, getModel db v.vid m.mid = some ((renderModelLine m).drop 7) := by
  obtain ⟨hvs, hnd⟩ := hok
  obtain ⟨st2, hrun, hdb⟩ := runLines_renderDB vs {} hvs hnd (fun v _ => rfl)
  refine ⟨st2.db, parseLines_of_runLines (renderDB vs) {} st2 hrun, ?_⟩
  intro v hv m hm
  have hdb2 : st2.db = dbOf vs := by rw [hdb]; rfl
  rw [hdb2]
  have hv1 : alookup v.vid (dbOf vs) = some (vendorEntry v) := by
    have h0 := alookup_map_pairs VendorSpecE.vid vendorEntry vs v hnd hv
    simpa [dbOf] using h0
  have hm1 : alookup m.mid (vendorEntry v).models = some (modelEntry m) := by
    have h0 := alookup_map_pairs ModelSpecE.mid modelEntry v.vmodels m
      ((hvs v hv).2.2.2.2.2) hm
    simpa [vendorEntry] using h0
  rw [renderModelLine_drop7 m ((hvs v hv).2.2.2.2.1 m hm).1]
  simp [getModel, hv1, hm1, modelEntry]

/-- Witness for C6: the one-vendor one-model description renders,
parses, and resolves its model description. -/
theorem c6_registered_models_reachable_witness :
    specOk c6vs ∧
    ∃ db, pciDBparse (renderDB c6vs) = Except.ok db ∧
      ∀ v ∈ c6vs, ∀ m ∈ v.vmodels, getModel db v.vid m.mid = some ((renderModelLine m).drop 7) :=
  ⟨by decide, c6_registered_models_reachable c6vs (by decide)⟩

end Pci
